import Mathlib

/-!
# LiDAR-based anomaly detector: command line front end and detector interface

A shallow embedding of `src/main/main.cc` (`ParsedInput`, `parseInput`, `missusage`, `main`)
and of the `compare` capability declared in `anomaly_detection/IAnomalyDetector.hh`.

Conventions of the embedding:

* a `std::string` is a `String`, one `Char` per C `char`, so `length()` is `String.length`;
* `uint32_t` is a `Nat` reduced modulo `2 ^ 32` where the source casts to it;
* a field that the constructor of `ParsedInput` leaves uninitialised is an `Option`,
  `none` standing for the indeterminate value;
* `char *broadcast_code` is a `ParserPtr`: a pointer into a string that belongs to the
  `InputParser`, readable only while that parser exists;
* `float` is an abstract type `F` with a zero, and `std::stof` is a parameter;
* every `return` in the middle of `parseInput` is an `Except.error` carrying the returned value.
-/

namespace LBAD

/-! ## Data model of `main.cc` -/

/-- The enumeration `TimerMode`; `main.cc` uses these four enumerators. -/
inductive TimerMode where
  | kUntimed
  | kTimedCharacterization
  | kTimedAnomalyDetection
  | kTimed
deriving DecidableEq, Repr

/-- The value of `EXIT_SUCCESS` of `<stdlib.h>`. -/
def EXIT_SUCCESS : Int := 0

/-- The value of `EXIT_FAILURE` of `<stdlib.h>`. -/
def EXIT_FAILURE : Int := 1

/-- Default frame time (ms). -/
def DEFAULT_FRAME_TIME : Nat := 100

/-- Default background time (ms). -/
def DEFAULT_BACKGROUND_TIME : Nat := 500

/-- Default point reflectivity, `0.f` in the source. -/
def DEFAULT_MIN_RELECTIVITY {F : Type} [Zero F] : F := 0

/-- What `main.cc` takes from headers and libraries outside the repository:
`kBroadcastCodeSize` of `livox_def.h`, the width of `unsigned long` (at least 32 bits in C),
and `std::stof` (`none` when it throws). -/
structure Env (F : Type) where
  kBroadcastCodeSize : Nat
  ulongBits : Nat
  ulongBits_ge : 32 ≤ ulongBits
  stof : String → Option F

/-- The two queries `parseInput` makes of the `InputParser` built from `argc`/`argv`
(class declared in `app/InputParser.hh`). -/
structure InputParser where
  optionExists : String → Bool
  getOption : String → String

/-- Token that follows the first occurrence of `opt`, or the empty string. -/
def valueAfter (opt : String) : List String → String
  | [] => ""
  | t :: rest => if t = opt then rest.headD "" else valueAfter opt rest

/-- Modelled from the spec: `app/InputParser.hh` is missing from the sources and the spec leaves
command line parsing to a collaborator; following the usage text of `main.cc`, an option exists
when it is one of the arguments after the program name, and its value is the argument that
follows it (empty when there is none). -/
def InputParser.ofArgs (argv : List String) : InputParser where
  optionExists := fun opt => argv.tail.contains opt
  getOption := fun opt => valueAfter opt argv.tail

/-- A `char *` taken with `c_str()` from a string that the `InputParser` hands out by reference
(lines 87 and 95): `target` is what it points to as long as the parser exists. -/
structure ParserPtr where
  target : String
deriving DecidableEq, Repr

/-- Reading the characters behind a `ParserPtr`: the target while the parser exists, nothing
defined once the parser is destroyed (the pointer dangles). -/
def ParserPtr.read (parserExists : Bool) (p : ParserPtr) : Option String :=
  if parserExists then some p.target else none

/-- The struct `ParsedInput`. -/
structure ParsedInput (F : Type) where
  is_ok : Bool
  exit_code : Option Int
  is_lidar : Option Bool
  filename : String
  broadcast_code : Option ParserPtr
  time_mode : TimerMode
  frame_time : Nat
  background_time : Nat
  min_reflectivity : F

/-- The constructor `ParsedInput()`: it initialises `is_ok`, `time_mode`, `frame_time`,
`background_time` and `min_reflectivity` only. -/
def ParsedInput.new {F : Type} [Zero F] : ParsedInput F where
  is_ok := false
  exit_code := none
  is_lidar := none
  filename := ""
  broadcast_code := none
  time_mode := TimerMode.kUntimed
  frame_time := DEFAULT_FRAME_TIME
  background_time := DEFAULT_BACKGROUND_TIME
  min_reflectivity := DEFAULT_MIN_RELECTIVITY

/-- The function `missusage`: stop and report a bad command line. -/
def missusage {F : Type} (pi : ParsedInput F) : ParsedInput F :=
  { pi with is_ok := false, exit_code := some EXIT_FAILURE }

/-! ## `std::stoul` -/

/-- Why `std::stoul` throws. -/
inductive StoulError where
  | invalid_argument
  | out_of_range
deriving DecidableEq, Repr

/-- The function `isspace` in the C locale: space, and the controls 9 to 13. -/
def isspace (c : Char) : Bool := c.toNat == 32 || (9 ≤ c.toNat && c.toNat ≤ 13)

/-- The function `isdigit`. -/
def isdigit (c : Char) : Bool := 48 ≤ c.toNat && c.toNat ≤ 57

/-- Value of a run of decimal digits, most significant first. -/
def digitsValue (ds : List Char) : Nat :=
  ds.foldl (fun acc c => 10 * acc + (c.toNat - 48)) 0

/-- An optional sign in front of the digits: whether it is a minus, and what follows it. -/
def takeSign : List Char → Bool × List Char
  | c :: rest =>
    if c = '-' then (true, rest)
    else if c = '+' then (false, rest)
    else (false, c :: rest)
  | [] => (false, [])

/-- Model of `std::stoul(str)` (base 10, no position output) for an `unsigned long` of
`ulongBits` bits: white space is skipped, one sign is accepted, the longest run of digits is
converted, and the rest of the string is ignored. No digit: `invalid_argument`; a value that
does not fit: `out_of_range`; a minus sign negates in `unsigned long` arithmetic. -/
def stoul (ulongBits : Nat) (str : String) : Except StoulError Nat :=
  let signed := takeSign (str.data.dropWhile isspace)
  let ds := signed.2.takeWhile isdigit
  if ds.isEmpty then Except.error StoulError.invalid_argument
  else
    let v := digitsValue ds
    if 2 ^ ulongBits ≤ v then Except.error StoulError.out_of_range
    else Except.ok (if signed.1 then (2 ^ ulongBits - v) % 2 ^ ulongBits else v)

/-- The conversion `static_cast<uint32_t>`. -/
def toUInt32 (v : Nat) : Nat := v % 2 ^ 32

/-! ## `parseInput`, block by block -/

/-- The value a function hands back, whether it left by an early `return` or by its last one. -/
def returnValue {α : Type} : Except α α → α
  | Except.ok r => r
  | Except.error r => r

section parse
variable {F : Type} [Zero F]

/-- The chain `-h | --help`, `-b`, `-f`, none of them (lines 74 to 120). -/
def sourceStep (env : Env F) (parser : InputParser) (pi : ParsedInput F) :
    Except (ParsedInput F) (ParsedInput F) :=
  if parser.optionExists "-h" || parser.optionExists "--help" then
    Except.error { pi with exit_code := some EXIT_SUCCESS }
  else if parser.optionExists "-b" then
    let option := parser.getOption "-b"
    if option.length == 0 || option.length != env.kBroadcastCodeSize then
      Except.error (missusage pi)
    else
      Except.ok
        { pi with is_ok := true, is_lidar := some true, broadcast_code := some ⟨option⟩ }
  else if parser.optionExists "-f" then
    let option := parser.getOption "-f"
    if option.length == 0 then
      Except.error (missusage pi)
    else
      Except.ok { pi with is_ok := true, is_lidar := some false, filename := option }
  else
    Except.error { pi with exit_code := some EXIT_SUCCESS }

/-- The block of option `-d`, frame duration (lines 122 to 142). -/
def frameStep (env : Env F) (parser : InputParser) (pi : ParsedInput F) :
    Except (ParsedInput F) (ParsedInput F) :=
  if parser.optionExists "-d" then
    let option := parser.getOption "-d"
    if option.length == 0 then
      Except.error (missusage pi)
    else
      match stoul env.ulongBits option with
      | Except.ok v => Except.ok { pi with frame_time := toUInt32 v }
      | Except.error _ => Except.error (missusage pi)
  else
    Except.ok pi

/-- The block of option `-t`, kind of chronometer (lines 144 to 176). -/
def timerStep (parser : InputParser) (pi : ParsedInput F) :
    Except (ParsedInput F) (ParsedInput F) :=
  if parser.optionExists "-t" then
    let option := parser.getOption "-t"
    if option.length == 0 then
      Except.error (missusage pi)
    else if option = "notime" then
      Except.ok pi
    else if option = "char" then
      Except.ok { pi with time_mode := TimerMode.kTimedCharacterization }
    else if option = "anom" then
      Except.ok { pi with time_mode := TimerMode.kTimedAnomalyDetection }
    else if option = "all" then
      Except.ok { pi with time_mode := TimerMode.kTimed }
    else
      Except.error (missusage pi)
  else
    Except.ok pi

/-- The block of option `-g`, background duration (lines 178 to 198). -/
def backgroundStep (env : Env F) (parser : InputParser) (pi : ParsedInput F) :
    Except (ParsedInput F) (ParsedInput F) :=
  if parser.optionExists "-g" then
    let option := parser.getOption "-g"
    if option.length == 0 then
      Except.error (missusage pi)
    else
      match stoul env.ulongBits option with
      | Except.ok v => Except.ok { pi with background_time := toUInt32 v }
      | Except.error _ => Except.error (missusage pi)
  else
    Except.ok pi

/-- The block of option `-r`, minimum reflectivity (lines 200 to 220). -/
def reflectivityStep (env : Env F) (parser : InputParser) (pi : ParsedInput F) :
    Except (ParsedInput F) (ParsedInput F) :=
  if parser.optionExists "-r" then
    let option := parser.getOption "-r"
    if option.length == 0 then
      Except.error (missusage pi)
    else
      match env.stof option with
      | some v => Except.ok { pi with min_reflectivity := v }
      | none => Except.error (missusage pi)
  else
    Except.ok pi

/-- The blocks of `parseInput` in the order of the source, the first early return ending the
chain. -/
def parseSteps (env : Env F) (parser : InputParser) (pi : ParsedInput F) :
    Except (ParsedInput F) (ParsedInput F) :=
  sourceStep env parser pi >>= frameStep env parser >>= timerStep parser >>=
    backgroundStep env parser >>= reflectivityStep env parser

/-- The local `pi` of `parseInput` when the first block is entered: the constructed value with
`frame_time` and `time_mode` assigned once more (lines 70 to 72). -/
def startInput : ParsedInput F :=
  { (ParsedInput.new : ParsedInput F) with
    frame_time := DEFAULT_FRAME_TIME, time_mode := TimerMode.kUntimed }

/-- The function `parseInput`: the value it returns, by an early `return` or by the final one. -/
def parseInput (env : Env F) (parser : InputParser) : ParsedInput F :=
  returnValue (parseSteps env parser startInput)

/-! ## `main` -/

/-- The arguments of the constructor of `App` (class of `app/App.hh`). The source is `none`
when `main` reads an indeterminate `is_lidar` or `broadcast_code`, or a `broadcast_code` that
dangles. -/
structure AppArgs (F : Type) where
  source : Option String
  time_mode : TimerMode
  frame_time : Nat
  background_time : Nat
  min_reflectivity : F
deriving DecidableEq

/-- The expression `pi.is_lidar ? pi.broadcast_code : pi.filename` of `main` (line 57), which
builds a `std::string` from the characters behind `broadcast_code`. It is evaluated after
`parseInput` has returned, when the `InputParser`, a local of `parseInput` (line 67), has been
destroyed; `filename` is a `std::string` of its own, copied at line 110. -/
def appSource (pi : ParsedInput F) : Option String :=
  match pi.is_lidar with
  | some true => pi.broadcast_code.bind (ParserPtr.read false)
  | some false => some pi.filename
  | none => none

/-- What a run of `main` does: the `App` it constructs, if any, and the value it returns. -/
structure MainRun (F : Type) where
  app : Option (AppArgs F)
  returned : Int

/-- The function `main`. -/
def main (env : Env F) (parser : InputParser) : MainRun F :=
  let pi := parseInput env parser
  { app :=
      if pi.is_ok then
        some { source := appSource pi, time_mode := pi.time_mode, frame_time := pi.frame_time,
               background_time := pi.background_time, min_reflectivity := pi.min_reflectivity }
      else none
    returned := EXIT_SUCCESS }

end parse

/-! ## Predicates on the command line used to state the properties -/

section predicates
variable {F : Type}

/-- The command line gets past the source block: neither `-h` nor `--help`, and either `-b` with
a value of the length of a broadcast code or, without `-b`, `-f` with a value. -/
def validSource (env : Env F) (parser : InputParser) : Bool :=
  !(parser.optionExists "-h" || parser.optionExists "--help") &&
    (if parser.optionExists "-b" then
      (parser.getOption "-b").length != 0 &&
        (parser.getOption "-b").length == env.kBroadcastCodeSize
    else
      parser.optionExists "-f" && (parser.getOption "-f").length != 0)

/-- The `-d` block lets `parseInput` go on: no `-d`, or a value `std::stoul` converts. -/
def frameValueOk (env : Env F) (parser : InputParser) : Bool :=
  !parser.optionExists "-d" ||
    ((parser.getOption "-d").length != 0 &&
      (stoul env.ulongBits (parser.getOption "-d")).toBool)

/-- The four values of `-t` listed by `help`. -/
def timerWords : List String := ["notime", "char", "anom", "all"]

/-- The `-t` block lets `parseInput` go on: no `-t`, or one of the four values. -/
def timerValueOk (parser : InputParser) : Bool :=
  !parser.optionExists "-t" || decide (parser.getOption "-t" ∈ timerWords)

/-- The string begins with a number: after optional white space and an optional sign comes a
decimal digit. -/
def beginsWithNumber (str : String) : Bool :=
  match (takeSign (str.data.dropWhile isspace)).2 with
  | c :: _ => isdigit c
  | [] => false

/-- The string consists of exactly `k` digits. -/
def exactlyDigits (k : Nat) (str : String) : Bool :=
  str.length == k && str.data.all isdigit

end predicates

section accepts
variable {F : Type} [Zero F]

/-- The source block accepts the `-b` value as the broadcast code: it does not return early and
leaves `is_lidar = true` with `broadcast_code` pointing to the value (read inside `parseInput`,
where the parser exists). -/
def acceptsBroadcast (env : Env F) (parser : InputParser) : Bool :=
  match sourceStep env parser (startInput : ParsedInput F) with
  | Except.ok r =>
    r.is_lidar == some true &&
      r.broadcast_code.bind (ParserPtr.read true) == some (parser.getOption "-b")
  | Except.error _ => false

end accepts

/-! ## The anomaly detector -/

section detector
variable {CV D : Type} [LinearOrder D]

/-- The record `Model` of the spec: label, reference vector, acceptance threshold. -/
structure Model (CV D : Type) where
  label : String
  reference : CV
  threshold : D

/-- The record `AnomalyResult` of the spec; `matched = none` is the spec's "none", and there is
no distance when nothing was compared. -/
structure AnomalyResult (D : Type) where
  matched : Option String
  distance : Option D
  is_anomaly : Bool

/-- Modelled from the spec: the selection inside `compare`, whose implementation is missing
(`IAnomalyDetector.hh` only declares it): the loaded model with the lowest distance to `cv`,
with that distance; the earliest one wins a tie. -/
def bestMatch (dist : CV → CV → D) (cv : CV) : List (Model CV D) → Option (Model CV D × D)
  | [] => none
  | m :: ms =>
    match bestMatch dist cv ms with
    | none => some (m, dist cv m.reference)
    | some (b, d) =>
      if dist cv m.reference ≤ d then some (m, dist cv m.reference) else some (b, d)

/-- Modelled from the spec: `IAnomalyDetector::compare`, declared pure virtual in
`IAnomalyDetector.hh` with no implementation in the sources. It computes the distance between
`cv` and each loaded model, selects the best match, and reports an anomaly if the best distance
exceeds that model's threshold or if no models are loaded. A total function: it never raises. -/
def compare (dist : CV → CV → D) (models : List (Model CV D)) (cv : CV) : AnomalyResult D :=
  match bestMatch dist cv models with
  | none => { matched := none, distance := none, is_anomaly := true }
  | some (m, d) =>
    { matched := some m.label, distance := some d, is_anomaly := decide (m.threshold < d) }

end detector

/-- A 64-bit target with the Livox SDK value of `kBroadcastCodeSize`; reflectivities are
rationals and `stof` reads a plain integer numeral. -/
def env64 : Env Rat where
  kBroadcastCodeSize := 16
  ulongBits := 64
  ulongBits_ge := by decide
  stof := fun s => s.toInt?.map (fun i => (i : Rat))

/-- The command line `anomaly_detection -f points.csv`. -/
def cmdFile : InputParser :=
  InputParser.ofArgs ["anomaly_detection", "-f", "points.csv"]

/-- The command line `anomaly_detection -f points.csv -t fast`: a wrong value of `-t`. -/
def cmdBadTimer : InputParser :=
  InputParser.ofArgs ["anomaly_detection", "-f", "points.csv", "-t", "fast"]

/-- The command line `anomaly_detection -b ABCDEFGHIJKLMNOP`: sixteen letters. -/
def cmdLetters : InputParser :=
  InputParser.ofArgs ["anomaly_detection", "-b", "ABCDEFGHIJKLMNOP"]

/-- The command line `anomaly_detection -b 0123456789012345 -d 250 -t char -g 750`. -/
def cmdLidar : InputParser :=
  InputParser.ofArgs
    ["anomaly_detection", "-b", "0123456789012345", "-d", "250", "-t", "char", "-g", "750"]

/-- The command line `anomaly_detection -f points.csv -d abc -t char`: `-t` after a wrong
`-d`. -/
def cmdBadFrameThenTimer : InputParser :=
  InputParser.ofArgs ["anomaly_detection", "-f", "points.csv", "-d", "abc", "-t", "char"]

/-- The command line `anomaly_detection -f points.csv -t fast -g 7`: `-g` after a wrong `-t`. -/
def cmdBadTimerThenBackground : InputParser :=
  InputParser.ofArgs ["anomaly_detection", "-f", "points.csv", "-t", "fast", "-g", "7"]

/-! ## How the blocks of `parseInput` compose -/

section chain
variable {F : Type}

theorem ok_bind {α : Type} (v : α) (f : α → Except α α) : (Except.ok v >>= f) = f v := rfl

theorem error_bind {α : Type} (e : α) (f : α → Except α α) :
    (Except.error e >>= f) = Except.error e := rfl

/-- A property of the returned value that holds before a block and that the block keeps, holds
after it, whichever `return` is taken. -/
theorem returnValue_bind {α : Type} (Q : α → Prop) (x : Except α α) (f : α → Except α α)
    (hx : Q (returnValue x)) (hf : ∀ a, Q a → Q (returnValue (f a))) :
    Q (returnValue (x >>= f)) := by
  cases x with
  | error e => simpa [error_bind, returnValue] using hx
  | ok v => simpa [ok_bind] using hf v (by simpa [returnValue] using hx)

/-- A property kept by each of the five blocks holds of what `parseInput` returns. -/
theorem parseSteps_keeps (Q : ParsedInput F → Prop) (env : Env F) (parser : InputParser)
    (pi : ParsedInput F) (h0 : Q pi)
    (hs : ∀ a, Q a → Q (returnValue (sourceStep env parser a)))
    (hd : ∀ a, Q a → Q (returnValue (frameStep env parser a)))
    (ht : ∀ a, Q a → Q (returnValue (timerStep parser a)))
    (hg : ∀ a, Q a → Q (returnValue (backgroundStep env parser a)))
    (hr : ∀ a, Q a → Q (returnValue (reflectivityStep env parser a))) :
    Q (returnValue (parseSteps env parser pi)) := by
  unfold parseSteps
  exact returnValue_bind Q _ _ (returnValue_bind Q _ _ (returnValue_bind Q _ _
    (returnValue_bind Q _ _ (hs pi h0) hd) ht) hg) hr

/-- What the source block returns: the help or usage value, the misuse value, or the input with
the source recorded, from `-b` when it is present and from `-f` otherwise. -/
theorem sourceStep_cases (env : Env F) (parser : InputParser) (pi : ParsedInput F) :
    sourceStep env parser pi = Except.error { pi with exit_code := some EXIT_SUCCESS } ∨
    sourceStep env parser pi = Except.error (missusage pi) ∨
    (parser.optionExists "-b" = true ∧
      sourceStep env parser pi = Except.ok
        { pi with is_ok := true, is_lidar := some true,
                  broadcast_code := some ⟨parser.getOption "-b"⟩ }) ∨
    (parser.optionExists "-b" = false ∧
      sourceStep env parser pi = Except.ok
        { pi with is_ok := true, is_lidar := some false, filename := parser.getOption "-f" }) := by
  by_cases hh : (parser.optionExists "-h" || parser.optionExists "--help") = true
  · left; simp only [sourceStep, hh, if_true]
  · by_cases hb : parser.optionExists "-b" = true
    · by_cases hv : ((parser.getOption "-b").length == 0 ||
          (parser.getOption "-b").length != env.kBroadcastCodeSize) = true
      · right; left; simp only [sourceStep, hh, hb, hv, if_true, if_false, Bool.false_eq_true]
      · right; right; left
        exact ⟨hb, by simp only [sourceStep, hh, hb, hv, if_true, if_false, Bool.false_eq_true]⟩
    · have hb2 : parser.optionExists "-b" = false := by simpa using hb
      by_cases hf : parser.optionExists "-f" = true
      · by_cases hv : ((parser.getOption "-f").length == 0) = true
        · right; left
          simp only [sourceStep, hh, hb, hf, hv, if_true, if_false, Bool.false_eq_true]
        · right; right; right
          exact ⟨hb2,
            by simp only [sourceStep, hh, hb, hf, hv, if_true, if_false, Bool.false_eq_true]⟩
      · left; simp only [sourceStep, hh, hb, hf, if_false, Bool.false_eq_true]

/-- What the `-d` block returns: the misuse value, or the input with a new `frame_time`. -/
theorem frameStep_cases (env : Env F) (parser : InputParser) (pi : ParsedInput F) :
    frameStep env parser pi = Except.error (missusage pi) ∨
    ∃ t, frameStep env parser pi = Except.ok { pi with frame_time := t } := by
  by_cases h1 : parser.optionExists "-d" = true
  · by_cases h2 : ((parser.getOption "-d").length == 0) = true
    · left; simp only [frameStep, h1, h2, if_true]
    · cases h3 : stoul env.ulongBits (parser.getOption "-d") with
      | ok v =>
        right
        exact ⟨toUInt32 v,
          by simp only [frameStep, h1, h2, h3, if_true, if_false, Bool.false_eq_true]⟩
      | error e => left; simp only [frameStep, h1, h2, h3, if_true, if_false, Bool.false_eq_true]
  · right; exact ⟨pi.frame_time, by simp only [frameStep, h1, if_false, Bool.false_eq_true]⟩

/-- What the `-t` block returns: the misuse value, or the input with a new `time_mode`. -/
theorem timerStep_cases (parser : InputParser) (pi : ParsedInput F) :
    timerStep parser pi = Except.error (missusage pi) ∨
    ∃ m, timerStep parser pi = Except.ok { pi with time_mode := m } := by
  unfold timerStep
  simp only []
  split_ifs
  · exact Or.inl rfl
  · exact Or.inr ⟨pi.time_mode, rfl⟩
  · exact Or.inr ⟨_, rfl⟩
  · exact Or.inr ⟨_, rfl⟩
  · exact Or.inr ⟨_, rfl⟩
  · exact Or.inl rfl
  · exact Or.inr ⟨pi.time_mode, rfl⟩

/-- What the `-g` block returns: the misuse value, or the input with a new `background_time`. -/
theorem backgroundStep_cases (env : Env F) (parser : InputParser) (pi : ParsedInput F) :
    backgroundStep env parser pi = Except.error (missusage pi) ∨
    ∃ t, backgroundStep env parser pi = Except.ok { pi with background_time := t } := by
  by_cases h1 : parser.optionExists "-g" = true
  · by_cases h2 : ((parser.getOption "-g").length == 0) = true
    · left; simp only [backgroundStep, h1, h2, if_true]
    · cases h3 : stoul env.ulongBits (parser.getOption "-g") with
      | ok v =>
        right
        exact ⟨toUInt32 v,
          by simp only [backgroundStep, h1, h2, h3, if_true, if_false, Bool.false_eq_true]⟩
      | error e =>
        left; simp only [backgroundStep, h1, h2, h3, if_true, if_false, Bool.false_eq_true]
  · right
    exact ⟨pi.background_time, by simp only [backgroundStep, h1, if_false, Bool.false_eq_true]⟩

/-- What the `-r` block returns: the misuse value, or the input with a new reflectivity. -/
theorem reflectivityStep_cases (env : Env F) (parser : InputParser) (pi : ParsedInput F) :
    reflectivityStep env parser pi = Except.error (missusage pi) ∨
    ∃ v, reflectivityStep env parser pi = Except.ok { pi with min_reflectivity := v } := by
  by_cases h1 : parser.optionExists "-r" = true
  · by_cases h2 : ((parser.getOption "-r").length == 0) = true
    · left; simp only [reflectivityStep, h1, h2, if_true]
    · cases h3 : env.stof (parser.getOption "-r") with
      | some v =>
        right
        exact ⟨v,
          by simp only [reflectivityStep, h1, h2, h3, if_true, if_false, Bool.false_eq_true]⟩
      | none =>
        left; simp only [reflectivityStep, h1, h2, h3, if_true, if_false, Bool.false_eq_true]
  · right
    exact ⟨pi.min_reflectivity,
      by simp only [reflectivityStep, h1, if_false, Bool.false_eq_true]⟩

/-- A property kept by the four ways out of the source block is kept by the block. -/
theorem sourceStep_keeps (Q : ParsedInput F → Prop) (env : Env F) (parser : InputParser)
    (hhelp : ∀ a, Q a → Q { a with exit_code := some EXIT_SUCCESS })
    (hmis : ∀ a, Q a → Q (missusage a))
    (hb : ∀ a, Q a → Q { a with is_ok := true, is_lidar := some true,
                                broadcast_code := some ⟨parser.getOption "-b"⟩ })
    (hf : ∀ a, Q a → Q { a with is_ok := true, is_lidar := some false,
                                filename := parser.getOption "-f" })
    (a : ParsedInput F) (ha : Q a) : Q (returnValue (sourceStep env parser a)) := by
  rcases sourceStep_cases env parser a with h | h | ⟨_, h⟩ | ⟨_, h⟩ <;> rw [h]
  · exact hhelp a ha
  · exact hmis a ha
  · exact hb a ha
  · exact hf a ha

/-- A property kept by `missusage` and by a change of `frame_time` is kept by the `-d` block. -/
theorem frameStep_keeps (Q : ParsedInput F → Prop) (env : Env F) (parser : InputParser)
    (hmis : ∀ a, Q a → Q (missusage a))
    (hset : ∀ a t, Q a → Q { a with frame_time := t })
    (a : ParsedInput F) (ha : Q a) : Q (returnValue (frameStep env parser a)) := by
  rcases frameStep_cases env parser a with h | ⟨t, h⟩ <;> rw [h]
  · exact hmis a ha
  · exact hset a t ha

/-- A property kept by `missusage` and by a change of `time_mode` is kept by the `-t` block. -/
theorem timerStep_keeps (Q : ParsedInput F → Prop) (parser : InputParser)
    (hmis : ∀ a, Q a → Q (missusage a))
    (hset : ∀ a m, Q a → Q { a with time_mode := m })
    (a : ParsedInput F) (ha : Q a) : Q (returnValue (timerStep parser a)) := by
  rcases timerStep_cases parser a with h | ⟨m, h⟩ <;> rw [h]
  · exact hmis a ha
  · exact hset a m ha

/-- A property kept by `missusage` and by a change of `background_time` is kept by the `-g`
block. -/
theorem backgroundStep_keeps (Q : ParsedInput F → Prop) (env : Env F) (parser : InputParser)
    (hmis : ∀ a, Q a → Q (missusage a))
    (hset : ∀ a t, Q a → Q { a with background_time := t })
    (a : ParsedInput F) (ha : Q a) : Q (returnValue (backgroundStep env parser a)) := by
  rcases backgroundStep_cases env parser a with h | ⟨t, h⟩ <;> rw [h]
  · exact hmis a ha
  · exact hset a t ha

/-- A property kept by `missusage` and by a change of `min_reflectivity` is kept by the `-r`
block. -/
theorem reflectivityStep_keeps (Q : ParsedInput F → Prop) (env : Env F) (parser : InputParser)
    (hmis : ∀ a, Q a → Q (missusage a))
    (hset : ∀ a v, Q a → Q { a with min_reflectivity := v })
    (a : ParsedInput F) (ha : Q a) : Q (returnValue (reflectivityStep env parser a)) := by
  rcases reflectivityStep_cases env parser a with h | ⟨v, h⟩ <;> rw [h]
  · exact hmis a ha
  · exact hset a v ha

/-- Without `-d` the `-d` block returns its input. -/
theorem frameStep_absent (env : Env F) (parser : InputParser) (pi : ParsedInput F)
    (h : parser.optionExists "-d" = false) : frameStep env parser pi = Except.ok pi := by
  simp only [frameStep, h, if_false, Bool.false_eq_true]

/-- Without `-t` the `-t` block returns its input. -/
theorem timerStep_absent (parser : InputParser) (pi : ParsedInput F)
    (h : parser.optionExists "-t" = false) : timerStep parser pi = Except.ok pi := by
  simp only [timerStep, h, if_false, Bool.false_eq_true]

/-- Without `-g` the `-g` block returns its input. -/
theorem backgroundStep_absent (env : Env F) (parser : InputParser) (pi : ParsedInput F)
    (h : parser.optionExists "-g" = false) : backgroundStep env parser pi = Except.ok pi := by
  simp only [backgroundStep, h, if_false, Bool.false_eq_true]

/-- Without `-r` the `-r` block returns its input. -/
theorem reflectivityStep_absent (env : Env F) (parser : InputParser) (pi : ParsedInput F)
    (h : parser.optionExists "-r" = false) : reflectivityStep env parser pi = Except.ok pi := by
  simp only [reflectivityStep, h, if_false, Bool.false_eq_true]

end chain

/-! ## Defaults -/

section defaults
variable {F : Type} [Zero F]

/-- C1: for every command line, an optional setting whose option is absent keeps its default in
the `ParsedInput` that `parseInput` returns: `frame_time = 100` without `-d`,
`background_time = 500` without `-g`, `min_reflectivity = 0` without `-r`, and
`time_mode = kUntimed` without `-t`. -/
theorem parseInput_defaults (env : Env F) (parser : InputParser) :
    (parser.optionExists "-d" = false → (parseInput env parser).frame_time = 100) ∧
    (parser.optionExists "-g" = false → (parseInput env parser).background_time = 500) ∧
    (parser.optionExists "-r" = false → (parseInput env parser).min_reflectivity = 0) ∧
    (parser.optionExists "-t" = false →
      (parseInput env parser).time_mode = TimerMode.kUntimed) := by
  refine ⟨fun h => ?_, fun h => ?_, fun h => ?_, fun h => ?_⟩
  · refine parseSteps_keeps (fun a => a.frame_time = 100) env parser startInput rfl
      (sourceStep_keeps _ env parser ?_ ?_ ?_ ?_) ?_
      (timerStep_keeps _ parser ?_ ?_) (backgroundStep_keeps _ env parser ?_ ?_)
      (reflectivityStep_keeps _ env parser ?_ ?_)
    case refine_5 => intro a ha; rw [frameStep_absent env parser a h]; exact ha
    all_goals intros; assumption
  · refine parseSteps_keeps (fun a => a.background_time = 500) env parser startInput rfl
      (sourceStep_keeps _ env parser ?_ ?_ ?_ ?_) (frameStep_keeps _ env parser ?_ ?_)
      (timerStep_keeps _ parser ?_ ?_) ?_
      (reflectivityStep_keeps _ env parser ?_ ?_)
    case refine_9 => intro a ha; rw [backgroundStep_absent env parser a h]; exact ha
    all_goals intros; assumption
  · refine parseSteps_keeps (fun a => a.min_reflectivity = 0) env parser startInput rfl
      (sourceStep_keeps _ env parser ?_ ?_ ?_ ?_) (frameStep_keeps _ env parser ?_ ?_)
      (timerStep_keeps _ parser ?_ ?_) (backgroundStep_keeps _ env parser ?_ ?_) ?_
    case refine_11 => intro a ha; rw [reflectivityStep_absent env parser a h]; exact ha
    all_goals intros; assumption
  · refine parseSteps_keeps (fun a => a.time_mode = TimerMode.kUntimed) env parser startInput rfl
      (sourceStep_keeps _ env parser ?_ ?_ ?_ ?_) (frameStep_keeps _ env parser ?_ ?_) ?_
      (backgroundStep_keeps _ env parser ?_ ?_) (reflectivityStep_keeps _ env parser ?_ ?_)
    case refine_7 => intro a ha; rw [timerStep_absent parser a h]; exact ha
    all_goals intros; assumption

end defaults

/-- The witness of C1: `anomaly_detection -f points.csv` has none of the four options and
`parseInput` returns the four defaults. -/
theorem parseInput_defaults_witness :
    (cmdFile.optionExists "-d" = false ∧ (parseInput env64 cmdFile).frame_time = 100) ∧
    (cmdFile.optionExists "-g" = false ∧ (parseInput env64 cmdFile).background_time = 500) ∧
    (cmdFile.optionExists "-r" = false ∧ (parseInput env64 cmdFile).min_reflectivity = 0) ∧
    (cmdFile.optionExists "-t" = false ∧
      (parseInput env64 cmdFile).time_mode = TimerMode.kUntimed) :=
  ⟨⟨by decide, (parseInput_defaults env64 cmdFile).1 (by decide)⟩,
   ⟨by decide, (parseInput_defaults env64 cmdFile).2.1 (by decide)⟩,
   ⟨by decide, (parseInput_defaults env64 cmdFile).2.2.1 (by decide)⟩,
   ⟨by decide, (parseInput_defaults env64 cmdFile).2.2.2 (by decide)⟩⟩

/-! ## `main` -/

section mainProgram
variable {F : Type} [Zero F]

/-- The function `main` returns `EXIT_SUCCESS` on every command line. -/
theorem main_returned (env : Env F) (parser : InputParser) :
    (main env parser).returned = EXIT_SUCCESS := rfl

/-- When `parseInput` returns `is_ok = true`, what `main` reads as the source is the `-f` value
if `-b` is absent, and nothing defined if `-b` is present: the pointer dangles. -/
theorem parseInput_source (env : Env F) (parser : InputParser)
    (hok : (parseInput env parser).is_ok = true) :
    appSource (parseInput env parser) =
      (if parser.optionExists "-b" then none else some (parser.getOption "-f")) := by
  have key : (parseInput env parser).is_ok = true → appSource (parseInput env parser) =
      (if parser.optionExists "-b" then none else some (parser.getOption "-f")) := by
    refine parseSteps_keeps (fun a : ParsedInput F => a.is_ok = true → appSource a =
      (if parser.optionExists "-b" then none else some (parser.getOption "-f")))
      env parser startInput ?_ ?_
      (frameStep_keeps _ env parser ?_ ?_) (timerStep_keeps _ parser ?_ ?_)
      (backgroundStep_keeps _ env parser ?_ ?_) (reflectivityStep_keeps _ env parser ?_ ?_)
    · intro h; exact absurd h Bool.false_ne_true
    · intro a ha
      rcases sourceStep_cases env parser a with h | h | ⟨hb, h⟩ | ⟨hb, h⟩ <;> rw [h]
      · exact ha
      · intro h2; exact absurd h2 Bool.false_ne_true
      · intro _; simp [returnValue, appSource, ParserPtr.read, hb]
      · intro _; simp [returnValue, appSource, hb]
    · intro a _ h2; exact absurd h2 Bool.false_ne_true
    · intro a t ha h2; exact ha h2
    · intro a _ h2; exact absurd h2 Bool.false_ne_true
    · intro a t ha h2; exact ha h2
    · intro a _ h2; exact absurd h2 Bool.false_ne_true
    · intro a t ha h2; exact ha h2
    · intro a _ h2; exact absurd h2 Bool.false_ne_true
    · intro a t ha h2; exact ha h2
  exact key hok

/-- What `main` does on every command line: it constructs the `App` if and only if `parseInput`
returned `is_ok = true`; the `App` then gets the `time_mode`, `frame_time`, `background_time`
and `min_reflectivity` of the `ParsedInput`; its source is the `-f` value when `-b` is absent,
and is read through the dangling `broadcast_code` when `-b` is present. -/
theorem main_app_arguments (env : Env F) (parser : InputParser) :
    ((main env parser).app.isSome = true ↔ (parseInput env parser).is_ok = true) ∧
    ∀ a, (main env parser).app = some a →
      a.source = (if parser.optionExists "-b" then none else some (parser.getOption "-f")) ∧
      a.time_mode = (parseInput env parser).time_mode ∧
      a.frame_time = (parseInput env parser).frame_time ∧
      a.background_time = (parseInput env parser).background_time ∧
      a.min_reflectivity = (parseInput env parser).min_reflectivity := by
  constructor
  · by_cases hok : (parseInput env parser).is_ok = true <;> simp [main, hok]
  · intro a ha
    by_cases hok : (parseInput env parser).is_ok = true
    · simp only [main, hok, if_true, Option.some.injEq] at ha
      subst ha
      exact ⟨parseInput_source env parser hok, rfl, rfl, rfl, rfl⟩
    · simp [main, hok] at ha

end mainProgram

/-- C7, the code on a live sensor command line: on
`anomaly_detection -b 0123456789012345 -d 250 -t char -g 750` the option `-b` is present with
value `0123456789012345`, `parseInput` returns `is_ok = true` and `main` constructs the `App`
with the parsed settings, but its source is read through a pointer into the destroyed
`InputParser` and is not the `-b` value. -/
theorem main_reads_dangling_broadcast_code :
    cmdLidar.optionExists "-b" = true ∧
    cmdLidar.getOption "-b" = "0123456789012345" ∧
    (parseInput env64 cmdLidar).is_ok = true ∧
    (main env64 cmdLidar).app =
      some { source := none, time_mode := TimerMode.kTimedCharacterization,
             frame_time := 250, background_time := 750, min_reflectivity := 0 } ∧
    ¬ ∃ a, (main env64 cmdLidar).app = some a ∧ a.source = some "0123456789012345" := by
  refine ⟨by decide, by decide, by decide, by decide, ?_⟩
  rintro ⟨a, ha, hsrc⟩
  have h := ((main_app_arguments env64 cmdLidar).2 a ha).1
  rw [h] at hsrc
  exact absurd hsrc (by decide)

/-- C3, the code at a misused command line: on `anomaly_detection -f points.csv -t fast`
`parseInput` returns `is_ok = false` with `exit_code = EXIT_FAILURE`, and `main` returns
`EXIT_SUCCESS`, which is another value. -/
theorem main_ignores_exit_code :
    (parseInput env64 cmdBadTimer).is_ok = false ∧
    (parseInput env64 cmdBadTimer).exit_code = some EXIT_FAILURE ∧
    (main env64 cmdBadTimer).returned = EXIT_SUCCESS ∧
    EXIT_SUCCESS ≠ EXIT_FAILURE := by
  decide

/-! ## The anomaly detector on an empty model set -/

/-- C6: for every characteristics vector `cv`, when the model set is empty `compare` produces a
result with `matched = none` and `is_anomaly = true`; `compare` is a total function, so it does
not raise. -/
theorem compare_empty {CV D : Type} [LinearOrder D] (dist : CV → CV → D) (cv : CV) :
    (compare dist ([] : List (Model CV D)) cv).matched = none ∧
    (compare dist ([] : List (Model CV D)) cv).is_anomaly = true :=
  ⟨rfl, rfl⟩

/-! ## `std::stoul` on decimal numerals -/

theorem digitChar_spec (d : Nat) (h : d < 10) :
    isdigit (Nat.digitChar d) = true ∧ (Nat.digitChar d).toNat - 48 = d := by
  interval_cases d <;> decide

theorem isdigit_not_space_sign (c : Char) (h : isdigit c = true) :
    isspace c = false ∧ c ≠ '-' ∧ c ≠ '+' := by
  simp only [isdigit, Bool.and_eq_true, decide_eq_true_eq] at h
  refine ⟨?_, ?_, ?_⟩
  · simp only [isspace, Bool.or_eq_false_iff, beq_eq_false_iff_ne, ne_eq, Bool.and_eq_false_imp,
      decide_eq_true_eq, decide_eq_false_iff_not, not_le]
    omega
  · rintro rfl; revert h; decide
  · rintro rfl; revert h; decide

/-- The digits that `Nat.toDigits 10` puts in front of `acc` are decimal digits whose value is
the number. -/
theorem toDigitsCore_spec : ∀ (fuel n : Nat) (acc : List Char), n < fuel →
    (∀ c ∈ acc, isdigit c = true) →
    (∀ c ∈ Nat.toDigitsCore 10 fuel n acc, isdigit c = true) ∧
    Nat.toDigitsCore 10 fuel n acc ≠ [] ∧
    List.foldl (fun a c => 10 * a + (c.toNat - 48)) 0 (Nat.toDigitsCore 10 fuel n acc) =
      List.foldl (fun a c => 10 * a + (c.toNat - 48)) n acc := by
  intro fuel
  induction fuel with
  | zero => intro n acc h; omega
  | succ f ih =>
    intro n acc hn hacc
    have hd := digitChar_spec (n % 10) (Nat.mod_lt _ (by decide))
    have hacc2 : ∀ c ∈ Nat.digitChar (n % 10) :: acc, isdigit c = true := by
      intro c hc
      rcases List.mem_cons.mp hc with h | h
      · rw [h]; exact hd.1
      · exact hacc c h
    by_cases h0 : n / 10 = 0
    · simp only [Nat.toDigitsCore, h0, if_true]
      refine ⟨hacc2, by simp, ?_⟩
      simp only [List.foldl_cons, hd.2]
      congr 1; omega
    · simp only [Nat.toDigitsCore, h0, if_false]
      have := ih (n / 10) (Nat.digitChar (n % 10) :: acc) (by omega) hacc2
      refine ⟨this.1, this.2.1, ?_⟩
      rw [this.2.2]
      simp only [List.foldl_cons, hd.2]
      congr 1; omega

/-- On a non-empty string of digits whose value fits, `stoul` returns that value. -/
theorem stoul_of_digits (w : Nat) (str : String) (hne : str.data ≠ [])
    (hall : ∀ c ∈ str.data, isdigit c = true) (hv : digitsValue str.data < 2 ^ w) :
    stoul w str = Except.ok (digitsValue str.data) := by
  obtain ⟨c, r, hcr⟩ := List.exists_cons_of_ne_nil hne
  have hc := isdigit_not_space_sign c (hall c (by rw [hcr]; exact List.mem_cons_self _ _))
  have h1 : str.data.dropWhile isspace = str.data := by
    rw [hcr]; simp [List.dropWhile_cons, hc.1]
  have h2 : takeSign str.data = (false, str.data) := by
    rw [hcr]; simp [takeSign, hc.2.1, hc.2.2]
  have h3 : str.data.takeWhile isdigit = str.data := List.takeWhile_eq_self_iff.mpr hall
  have h4 : str.data.isEmpty = false := by rw [hcr]; rfl
  simp only [stoul, h1, h2, h3, h4, Bool.false_eq_true, if_false, not_le.mpr hv]

/-- The function `stoul` reads back the decimal numeral of a number that fits. -/
theorem stoul_repr (w n : Nat) (h : n < 2 ^ w) : stoul w (Nat.repr n) = Except.ok n := by
  have hs := toDigitsCore_spec (n + 1) n [] (Nat.lt_succ_self n) (by simp)
  have hdata : (Nat.repr n).data = Nat.toDigitsCore 10 (n + 1) n [] := rfl
  have hval : digitsValue (Nat.repr n).data = n := by
    rw [hdata]; simpa [digitsValue] using hs.2.2
  have := stoul_of_digits w (Nat.repr n) (by rw [hdata]; exact hs.2.1)
    (by rw [hdata]; exact hs.1) (by rw [hval]; exact h)
  rw [this, hval]

/-- The decimal numeral of a number is not the empty string. -/
theorem repr_length_ne_zero (n : Nat) : ((Nat.repr n).length == 0) = false := by
  have hs := toDigitsCore_spec (n + 1) n [] (Nat.lt_succ_self n) (by simp)
  have hdata : (Nat.repr n).data = Nat.toDigitsCore 10 (n + 1) n [] := rfl
  have : (Nat.repr n).length ≠ 0 := by
    intro h0
    exact hs.2.1 (hdata ▸ List.length_eq_zero.mp h0)
  simpa using this

/-- On a string that does not begin with a number `stoul` throws `invalid_argument`. -/
theorem stoul_invalid (w : Nat) (str : String) (h : beginsWithNumber str = false) :
    stoul w str = Except.error StoulError.invalid_argument := by
  unfold beginsWithNumber at h
  unfold stoul
  simp only []
  cases hl : (takeSign (str.data.dropWhile isspace)).2 with
  | nil => simp
  | cons c r =>
    rw [hl] at h
    simp only at h
    simp [List.takeWhile_cons, h]

/-! ## The option blocks on given values -/

section blocks
variable {F : Type}

/-- A command line with a valid source gets past the source block, which leaves the optional
settings as they were and sets `is_ok`. -/
theorem sourceStep_of_valid (env : Env F) (parser : InputParser)
    (h : validSource env parser = true) (pi : ParsedInput F) :
    ∃ r, sourceStep env parser pi = Except.ok r ∧ r.time_mode = pi.time_mode ∧
      r.frame_time = pi.frame_time ∧ r.background_time = pi.background_time := by
  rcases sourceStep_cases env parser pi with hc | hc | ⟨_, hc⟩ | ⟨_, hc⟩
  · exfalso
    revert h hc
    unfold validSource sourceStep
    by_cases hh : (parser.optionExists "-h" || parser.optionExists "--help") = true
    · simp [hh]
    · by_cases hb : parser.optionExists "-b" = true
      · by_cases hv : ((parser.getOption "-b").length == 0 ||
            (parser.getOption "-b").length != env.kBroadcastCodeSize) = true
        · simp only [hh, hb, hv, if_true, if_false, Bool.false_eq_true]
          intro _ h2; exact absurd h2 (by simp [missusage, EXIT_FAILURE, EXIT_SUCCESS])
        · simp only [hh, hb, hv, if_true, if_false, Bool.false_eq_true]
          intro _ h2; exact absurd h2 (by simp)
      · by_cases hf : parser.optionExists "-f" = true
        · by_cases hv : ((parser.getOption "-f").length == 0) = true
          · simp only [hh, hb, hf, hv, if_true, if_false, Bool.false_eq_true]
            intro _ h2; exact absurd h2 (by simp [missusage, EXIT_FAILURE, EXIT_SUCCESS])
          · simp only [hh, hb, hf, hv, if_true, if_false, Bool.false_eq_true]
            intro _ h2; exact absurd h2 (by simp)
        · simp [hh, hb, hf]
  · exfalso
    revert h hc
    unfold validSource sourceStep
    by_cases hh : (parser.optionExists "-h" || parser.optionExists "--help") = true
    · simp [hh]
    · by_cases hb : parser.optionExists "-b" = true
      · by_cases hv : ((parser.getOption "-b").length == 0 ||
            (parser.getOption "-b").length != env.kBroadcastCodeSize) = true
        · intro h1 _
          simp only [Bool.or_eq_true, beq_iff_eq, bne_iff_ne, ne_eq] at hv
          simp only [hb, if_true, Bool.and_eq_true, bne_iff_ne, ne_eq, beq_iff_eq] at h1
          rcases hv with hv | hv
          · exact h1.2.1 hv
          · exact hv h1.2.2
        · simp only [hh, hb, hv, if_true, if_false, Bool.false_eq_true]
          intro _ h2; exact absurd h2 (by simp)
      · by_cases hf : parser.optionExists "-f" = true
        · by_cases hv : ((parser.getOption "-f").length == 0) = true
          · intro h1 _
            simp only [beq_iff_eq] at hv
            simp only [hb, if_false, Bool.false_eq_true, Bool.and_eq_true, bne_iff_ne,
              ne_eq] at h1
            exact h1.2.2 hv
          · simp only [hh, hb, hf, hv, if_true, if_false, Bool.false_eq_true]
            intro _ h2; exact absurd h2 (by simp)
        · simp [hh, hb, hf]
  · exact ⟨_, hc, rfl, rfl, rfl⟩
  · exact ⟨_, hc, rfl, rfl, rfl⟩

end blocks

section values
variable {F : Type}

/-- The `-d` block on a value that `stoul` converts. -/
theorem frameStep_value (env : Env F) (parser : InputParser) (pi : ParsedInput F) (v : Nat)
    (hd : parser.optionExists "-d" = true)
    (hne : ((parser.getOption "-d").length == 0) = false)
    (hv : stoul env.ulongBits (parser.getOption "-d") = Except.ok v) :
    frameStep env parser pi = Except.ok { pi with frame_time := toUInt32 v } := by
  simp only [frameStep, hd, hne, hv, if_true, if_false, Bool.false_eq_true]

/-- The `-g` block on a value that `stoul` converts. -/
theorem backgroundStep_value (env : Env F) (parser : InputParser) (pi : ParsedInput F) (v : Nat)
    (hg : parser.optionExists "-g" = true)
    (hne : ((parser.getOption "-g").length == 0) = false)
    (hv : stoul env.ulongBits (parser.getOption "-g") = Except.ok v) :
    backgroundStep env parser pi = Except.ok { pi with background_time := toUInt32 v } := by
  simp only [backgroundStep, hg, hne, hv, if_true, if_false, Bool.false_eq_true]

/-- The `-d` block takes the misuse path on a value that is empty or begins with no number. -/
theorem frameStep_misuse (env : Env F) (parser : InputParser) (pi : ParsedInput F)
    (hd : parser.optionExists "-d" = true)
    (hbad : (parser.getOption "-d").length = 0 ∨
      beginsWithNumber (parser.getOption "-d") = false) :
    frameStep env parser pi = Except.error (missusage pi) := by
  by_cases h0 : ((parser.getOption "-d").length == 0) = true
  · simp only [frameStep, hd, h0, if_true]
  · have hb : beginsWithNumber (parser.getOption "-d") = false := by
      rcases hbad with h | h
      · exact absurd (by simpa using h) h0
      · exact h
    simp only [frameStep, hd, h0, stoul_invalid _ _ hb, if_true, if_false, Bool.false_eq_true]

/-- The `-g` block takes the misuse path on a value that is empty or begins with no number. -/
theorem backgroundStep_misuse (env : Env F) (parser : InputParser) (pi : ParsedInput F)
    (hg : parser.optionExists "-g" = true)
    (hbad : (parser.getOption "-g").length = 0 ∨
      beginsWithNumber (parser.getOption "-g") = false) :
    backgroundStep env parser pi = Except.error (missusage pi) := by
  by_cases h0 : ((parser.getOption "-g").length == 0) = true
  · simp only [backgroundStep, hg, h0, if_true]
  · have hb : beginsWithNumber (parser.getOption "-g") = false := by
      rcases hbad with h | h
      · exact absurd (by simpa using h) h0
      · exact h
    simp only [backgroundStep, hg, h0, stoul_invalid _ _ hb, if_true, if_false,
      Bool.false_eq_true]

/-- When the `-d` value is acceptable the `-d` block changes `frame_time` at most. -/
theorem frameStep_of_valueOk (env : Env F) (parser : InputParser) (pi : ParsedInput F)
    (h : frameValueOk env parser = true) :
    ∃ t, frameStep env parser pi = Except.ok { pi with frame_time := t } := by
  by_cases hd : parser.optionExists "-d" = true
  · simp only [frameValueOk, hd, Bool.not_true, Bool.false_or, Bool.and_eq_true, bne_iff_ne,
      ne_eq] at h
    cases hv : stoul env.ulongBits (parser.getOption "-d") with
    | ok v => exact ⟨_, frameStep_value env parser pi v hd (by simpa using h.1) hv⟩
    | error e => rw [hv] at h; exact absurd h.2 (by simp [Except.toBool])
  · exact ⟨pi.frame_time, frameStep_absent env parser pi (by simpa using hd)⟩

/-- The `-t` block on each of the four values, and on any other value. -/
theorem timerStep_value (parser : InputParser) (pi : ParsedInput F)
    (ht : parser.optionExists "-t" = true) :
    (parser.getOption "-t" = "notime" → timerStep parser pi = Except.ok pi) ∧
    (parser.getOption "-t" = "char" →
      timerStep parser pi = Except.ok { pi with time_mode := TimerMode.kTimedCharacterization }) ∧
    (parser.getOption "-t" = "anom" →
      timerStep parser pi = Except.ok { pi with time_mode := TimerMode.kTimedAnomalyDetection }) ∧
    (parser.getOption "-t" = "all" →
      timerStep parser pi = Except.ok { pi with time_mode := TimerMode.kTimed }) ∧
    (parser.getOption "-t" ∉ timerWords →
      timerStep parser pi = Except.error (missusage pi)) := by
  refine ⟨fun h => ?_, fun h => ?_, fun h => ?_, fun h => ?_, fun h => ?_⟩
  · simp only [timerStep, ht, h, if_true]; rfl
  · simp only [timerStep, ht, h, if_true]; rfl
  · simp only [timerStep, ht, h, if_true]; rfl
  · simp only [timerStep, ht, h, if_true]; rfl
  · simp only [timerWords, List.mem_cons, List.mem_singleton, List.not_mem_nil, or_false,
      not_or] at h
    simp only [timerStep, ht, h.1, h.2.1, h.2.2.1, h.2.2.2, if_true, if_false]
    split_ifs <;> rfl

end values

/-! ## The misuse path -/

section misuse
variable {F : Type}

/-- A value returned by the misuse path stays one through a block that assigns other fields. -/
theorem misuse_kept_by (step : ParsedInput F → Except (ParsedInput F) (ParsedInput F))
    (hstep : ∀ a, step a = Except.error (missusage a) ∨
      ∃ r, step a = Except.ok r ∧ r.is_ok = a.is_ok ∧ r.exit_code = a.exit_code)
    (a : ParsedInput F) (ha : a.is_ok = false ∧ a.exit_code = some EXIT_FAILURE) :
    (returnValue (step a)).is_ok = false ∧
      (returnValue (step a)).exit_code = some EXIT_FAILURE := by
  rcases hstep a with h | ⟨r, h, h1, h2⟩ <;> rw [h]
  · exact ⟨rfl, rfl⟩
  · exact ⟨h1.trans ha.1, h2.trans ha.2⟩

theorem frameStep_shape (env : Env F) (parser : InputParser) (a : ParsedInput F) :
    frameStep env parser a = Except.error (missusage a) ∨
      ∃ r, frameStep env parser a = Except.ok r ∧ r.is_ok = a.is_ok ∧
        r.exit_code = a.exit_code := by
  rcases frameStep_cases env parser a with h | ⟨t, h⟩
  · exact Or.inl h
  · exact Or.inr ⟨_, h, rfl, rfl⟩

theorem timerStep_shape (parser : InputParser) (a : ParsedInput F) :
    timerStep parser a = Except.error (missusage a) ∨
      ∃ r, timerStep parser a = Except.ok r ∧ r.is_ok = a.is_ok ∧
        r.exit_code = a.exit_code := by
  rcases timerStep_cases parser a with h | ⟨t, h⟩
  · exact Or.inl h
  · exact Or.inr ⟨_, h, rfl, rfl⟩

theorem backgroundStep_shape (env : Env F) (parser : InputParser) (a : ParsedInput F) :
    backgroundStep env parser a = Except.error (missusage a) ∨
      ∃ r, backgroundStep env parser a = Except.ok r ∧ r.is_ok = a.is_ok ∧
        r.exit_code = a.exit_code := by
  rcases backgroundStep_cases env parser a with h | ⟨t, h⟩
  · exact Or.inl h
  · exact Or.inr ⟨_, h, rfl, rfl⟩

theorem reflectivityStep_shape (env : Env F) (parser : InputParser) (a : ParsedInput F) :
    reflectivityStep env parser a = Except.error (missusage a) ∨
      ∃ r, reflectivityStep env parser a = Except.ok r ∧ r.is_ok = a.is_ok ∧
        r.exit_code = a.exit_code := by
  rcases reflectivityStep_cases env parser a with h | ⟨t, h⟩
  · exact Or.inl h
  · exact Or.inr ⟨_, h, rfl, rfl⟩

/-- When every early return so far was the misuse path and the next block always takes the
misuse path, the value returned is a misuse value. -/
theorem misuse_of_failing_block (x : Except (ParsedInput F) (ParsedInput F))
    (step : ParsedInput F → Except (ParsedInput F) (ParsedInput F))
    (hx : ∀ e, x = Except.error e → e.is_ok = false ∧ e.exit_code = some EXIT_FAILURE)
    (hstep : ∀ a, step a = Except.error (missusage a)) :
    (returnValue (x >>= step)).is_ok = false ∧
      (returnValue (x >>= step)).exit_code = some EXIT_FAILURE := by
  cases x with
  | error e => exact hx e rfl
  | ok v => rw [ok_bind, hstep v]; exact ⟨rfl, rfl⟩

/-- Early returns of a block that follows an accepted source are misuse values as soon as the
early returns of the block are. -/
theorem errors_of_bind (x : Except (ParsedInput F) (ParsedInput F))
    (step : ParsedInput F → Except (ParsedInput F) (ParsedInput F))
    (hx : ∀ e, x = Except.error e → e.is_ok = false ∧ e.exit_code = some EXIT_FAILURE)
    (hstep : ∀ a, step a = Except.error (missusage a) ∨
      ∃ r, step a = Except.ok r ∧ r.is_ok = a.is_ok ∧ r.exit_code = a.exit_code) :
    ∀ e, (x >>= step) = Except.error e →
      e.is_ok = false ∧ e.exit_code = some EXIT_FAILURE := by
  intro e he
  cases x with
  | error e2 =>
    rw [error_bind] at he
    exact hx e (by rw [he])
  | ok v =>
    rw [ok_bind] at he
    rcases hstep v with h | ⟨r, h, _, _⟩
    · rw [h] at he
      cases he
      exact ⟨rfl, rfl⟩
    · rw [h] at he
      cases he

end misuse

/-! ## What `parseInput` returns once a block has been passed -/

section tails
variable {F : Type}

/-- A property that holds after the `-d` block and that the later blocks keep holds of the
returned value. -/
theorem after_frame (Q : ParsedInput F → Prop) (env : Env F) (parser : InputParser)
    (x : Except (ParsedInput F) (ParsedInput F)) (hx : Q (returnValue x))
    (ht : ∀ a, Q a → Q (returnValue (timerStep parser a)))
    (hg : ∀ a, Q a → Q (returnValue (backgroundStep env parser a)))
    (hr : ∀ a, Q a → Q (returnValue (reflectivityStep env parser a))) :
    Q (returnValue (x >>= timerStep parser >>= backgroundStep env parser >>=
      reflectivityStep env parser)) :=
  returnValue_bind Q (x >>= timerStep parser >>= backgroundStep env parser)
    (reflectivityStep env parser)
    (returnValue_bind Q (x >>= timerStep parser) (backgroundStep env parser)
      (returnValue_bind Q x (timerStep parser) hx ht) hg) hr

/-- A property that holds after the `-t` block and that the later blocks keep holds of the
returned value. -/
theorem after_timer (Q : ParsedInput F → Prop) (env : Env F) (parser : InputParser)
    (x : Except (ParsedInput F) (ParsedInput F)) (hx : Q (returnValue x))
    (hg : ∀ a, Q a → Q (returnValue (backgroundStep env parser a)))
    (hr : ∀ a, Q a → Q (returnValue (reflectivityStep env parser a))) :
    Q (returnValue (x >>= backgroundStep env parser >>= reflectivityStep env parser)) :=
  returnValue_bind Q (x >>= backgroundStep env parser) (reflectivityStep env parser)
    (returnValue_bind Q x (backgroundStep env parser) hx hg) hr

end tails

section passed
variable {F : Type} [Zero F]

/-- After the `-d` block has been passed, its `frame_time` is the one `parseInput` returns. -/
theorem frame_time_of_passed (env : Env F) (parser : InputParser) (r : ParsedInput F)
    (h : (sourceStep env parser startInput >>= frameStep env parser) = Except.ok r) :
    (parseInput env parser).frame_time = r.frame_time := by
  unfold parseInput parseSteps
  rw [h]
  exact after_frame (fun a => a.frame_time = r.frame_time) env parser (Except.ok r) rfl
    (timerStep_keeps _ parser (fun _ h => h) (fun _ _ h => h))
    (backgroundStep_keeps _ env parser (fun _ h => h) (fun _ _ h => h))
    (reflectivityStep_keeps _ env parser (fun _ h => h) (fun _ _ h => h))

/-- After the `-t` block has been passed, its `time_mode` is the one `parseInput` returns. -/
theorem time_mode_of_passed (env : Env F) (parser : InputParser) (r : ParsedInput F)
    (h : (sourceStep env parser startInput >>= frameStep env parser >>= timerStep parser) =
      Except.ok r) :
    (parseInput env parser).time_mode = r.time_mode := by
  unfold parseInput parseSteps
  rw [h]
  exact after_timer (fun a => a.time_mode = r.time_mode) env parser (Except.ok r) rfl
    (backgroundStep_keeps _ env parser (fun _ h => h) (fun _ _ h => h))
    (reflectivityStep_keeps _ env parser (fun _ h => h) (fun _ _ h => h))

/-- After the `-g` block has been passed, its `background_time` is the one `parseInput`
returns. -/
theorem background_time_of_passed (env : Env F) (parser : InputParser) (r : ParsedInput F)
    (h : (sourceStep env parser startInput >>= frameStep env parser >>= timerStep parser >>=
      backgroundStep env parser) = Except.ok r) :
    (parseInput env parser).background_time = r.background_time := by
  unfold parseInput parseSteps
  rw [h]
  exact returnValue_bind (fun a => a.background_time = r.background_time) (Except.ok r)
    (reflectivityStep env parser) rfl
    (reflectivityStep_keeps (fun a => a.background_time = r.background_time) env parser
      (fun _ h => h) (fun _ _ h => h))

/-- A misuse value returned by the first three blocks is what `parseInput` returns, up to the
fields that the last two blocks assign. -/
theorem misuse_after_timer (env : Env F) (parser : InputParser)
    (h : (returnValue (sourceStep env parser startInput >>= frameStep env parser >>=
        timerStep parser)).is_ok = false ∧
      (returnValue (sourceStep env parser (startInput : ParsedInput F) >>=
        frameStep env parser >>= timerStep parser)).exit_code = some EXIT_FAILURE) :
    (parseInput env parser).is_ok = false ∧
      (parseInput env parser).exit_code = some EXIT_FAILURE := by
  unfold parseInput parseSteps
  exact after_timer (fun a => a.is_ok = false ∧ a.exit_code = some EXIT_FAILURE) env parser _ h
    (misuse_kept_by _ (backgroundStep_shape env parser))
    (misuse_kept_by _ (reflectivityStep_shape env parser))

/-- A misuse value returned by the first two blocks is what `parseInput` returns, up to the
fields that the later blocks assign. -/
theorem misuse_after_frame (env : Env F) (parser : InputParser)
    (h : (returnValue (sourceStep env parser startInput >>= frameStep env parser)).is_ok =
        false ∧
      (returnValue (sourceStep env parser (startInput : ParsedInput F) >>=
        frameStep env parser)).exit_code = some EXIT_FAILURE) :
    (parseInput env parser).is_ok = false ∧
      (parseInput env parser).exit_code = some EXIT_FAILURE := by
  unfold parseInput parseSteps
  exact after_frame (fun a => a.is_ok = false ∧ a.exit_code = some EXIT_FAILURE) env parser _ h
    (misuse_kept_by _ (timerStep_shape parser))
    (misuse_kept_by _ (backgroundStep_shape env parser))
    (misuse_kept_by _ (reflectivityStep_shape env parser))

/-- When the `-t` value is acceptable the `-t` block changes `time_mode` at most. -/
theorem timerStep_of_valueOk {G : Type} (parser : InputParser) (pi : ParsedInput G)
    (h : timerValueOk parser = true) :
    ∃ m, timerStep parser pi = Except.ok { pi with time_mode := m } := by
  by_cases ht : parser.optionExists "-t" = true
  · simp only [timerValueOk, ht, Bool.not_true, Bool.false_or, decide_eq_true_eq, timerWords,
      List.mem_cons, List.mem_singleton, List.not_mem_nil, or_false] at h
    have hv := timerStep_value parser pi ht
    rcases h with h | h | h | h
    · exact ⟨pi.time_mode, hv.1 h⟩
    · exact ⟨_, hv.2.1 h⟩
    · exact ⟨_, hv.2.2.1 h⟩
    · exact ⟨_, hv.2.2.2.1 h⟩
  · exact ⟨pi.time_mode, timerStep_absent parser pi (by simpa using ht)⟩

end passed

/-! ## The option `-t` -/

section timer
variable {F : Type} [Zero F]

/-- C2, as amended: for every command line with a valid source option and `-t` given a value
`v`: the `-t` block succeeds if and only if `v` is one of `notime`, `char`, `anom`, `all`; when
the `-d` block before it does not take the misuse path (`-d` absent or converted by
`std::stoul`) the `time_mode` that `parseInput` returns is then respectively `kUntimed`,
`kTimedCharacterization`, `kTimedAnomalyDetection`, `kTimed`; and for every other `v`, the
empty one included, `parseInput` returns `is_ok = false` with `exit_code = EXIT_FAILURE`. -/
theorem timer_option (env : Env F) (parser : InputParser)
    (hsrc : validSource env parser = true) (ht : parser.optionExists "-t" = true) :
    (∀ pi : ParsedInput F,
      (timerStep parser pi).toBool = true ↔ parser.getOption "-t" ∈ timerWords) ∧
    (frameValueOk env parser = true →
      (parser.getOption "-t" = "notime" →
        (parseInput env parser).time_mode = TimerMode.kUntimed) ∧
      (parser.getOption "-t" = "char" →
        (parseInput env parser).time_mode = TimerMode.kTimedCharacterization) ∧
      (parser.getOption "-t" = "anom" →
        (parseInput env parser).time_mode = TimerMode.kTimedAnomalyDetection) ∧
      (parser.getOption "-t" = "all" →
        (parseInput env parser).time_mode = TimerMode.kTimed)) ∧
    (parser.getOption "-t" ∉ timerWords →
      (parseInput env parser).is_ok = false ∧
        (parseInput env parser).exit_code = some EXIT_FAILURE) := by
  obtain ⟨r0, hs, hm0, _, _⟩ := sourceStep_of_valid env parser hsrc (startInput : ParsedInput F)
  refine ⟨fun pi => ?_, fun hd => ?_, fun hbad => ?_⟩
  · have hv := timerStep_value parser pi ht
    constructor
    · intro hok
      by_contra hbad
      rw [hv.2.2.2.2 hbad] at hok
      exact absurd hok (by simp [Except.toBool])
    · intro hmem
      simp only [timerWords, List.mem_cons, List.mem_singleton, List.not_mem_nil,
        or_false] at hmem
      rcases hmem with h | h | h | h
      · rw [hv.1 h]; rfl
      · rw [hv.2.1 h]; rfl
      · rw [hv.2.2.1 h]; rfl
      · rw [hv.2.2.2.1 h]; rfl
  · obtain ⟨t, hf⟩ := frameStep_of_valueOk env parser r0 hd
    have hv := timerStep_value parser ({ r0 with frame_time := t } : ParsedInput F) ht
    have hpre : ∀ r, timerStep parser ({ r0 with frame_time := t } : ParsedInput F) =
        Except.ok r →
        (sourceStep env parser startInput >>= frameStep env parser >>= timerStep parser) =
          Except.ok r := by
      intro r hr
      rw [hs, ok_bind, hf, ok_bind, hr]
    refine ⟨fun h => ?_, fun h => ?_, fun h => ?_, fun h => ?_⟩
    · rw [time_mode_of_passed env parser _ (hpre _ (hv.1 h))]; exact hm0
    · rw [time_mode_of_passed env parser _ (hpre _ (hv.2.1 h))]
    · rw [time_mode_of_passed env parser _ (hpre _ (hv.2.2.1 h))]
    · rw [time_mode_of_passed env parser _ (hpre _ (hv.2.2.2.1 h))]
  · apply misuse_after_timer
    refine misuse_of_failing_block _ _ ?_
      (fun a => (timerStep_value parser a ht).2.2.2.2 hbad)
    rw [hs, ok_bind]
    exact errors_of_bind (Except.ok r0) _ (fun e he => by cases he)
      (frameStep_shape env parser)

end timer

/-- The witness of C2 as amended: `anomaly_detection -b 0123456789012345 -d 250 -t char -g 750`
has a valid source, a `-d` value that converts and `-t char`, and `parseInput` returns
`kTimedCharacterization`. -/
theorem timer_option_witness :
    validSource env64 cmdLidar = true ∧ cmdLidar.optionExists "-t" = true ∧
    frameValueOk env64 cmdLidar = true ∧ cmdLidar.getOption "-t" = "char" ∧
    (parseInput env64 cmdLidar).time_mode = TimerMode.kTimedCharacterization :=
  ⟨by decide, by decide, by decide, by decide,
   ((timer_option env64 cmdLidar (by decide) (by decide)).2.1 (by decide)).2.1 (by decide)⟩

/-- C2 as stated fails: `anomaly_detection -f points.csv -d abc -t char` has a valid source
option and `-t` with the value `char`, yet `parseInput` returns `time_mode = kUntimed` and not
`kTimedCharacterization`, because the `-d` block returns before `-t` is read. -/
theorem timer_option_skipped :
    validSource env64 cmdBadFrameThenTimer = true ∧
    cmdBadFrameThenTimer.optionExists "-t" = true ∧
    cmdBadFrameThenTimer.getOption "-t" = "char" ∧
    (parseInput env64 cmdBadFrameThenTimer).time_mode = TimerMode.kUntimed ∧
    ¬ (parseInput env64 cmdBadFrameThenTimer).time_mode = TimerMode.kTimedCharacterization := by
  decide

/-! ## The option `-b` -/

section broadcast
variable {F : Type} [Zero F]

/-- C4, as amended: for every command line that contains `-b` and neither `-h` nor `--help`,
`parseInput` accepts the `-b` value as the lidar broadcast code (the source block does not
return early and sets `is_lidar = true`) if and only if the value is not empty and has exactly
`kBroadcastCodeSize` characters, digits or not. -/
theorem broadcast_code_accepted (env : Env F) (parser : InputParser)
    (hh : parser.optionExists "-h" = false) (hhelp : parser.optionExists "--help" = false)
    (hb : parser.optionExists "-b" = true) :
    (acceptsBroadcast env parser = true ↔
      (parser.getOption "-b").length ≠ 0 ∧
        (parser.getOption "-b").length = env.kBroadcastCodeSize) ∧
    ((parseInput env parser).is_lidar = some true ↔
      (parser.getOption "-b").length ≠ 0 ∧
        (parser.getOption "-b").length = env.kBroadcastCodeSize) := by
  by_cases hv : ((parser.getOption "-b").length == 0 ||
      (parser.getOption "-b").length != env.kBroadcastCodeSize) = true
  · have hs : sourceStep env parser (startInput : ParsedInput F) =
        Except.error (missusage startInput) := by
      simp only [sourceStep, hh, hhelp, hb, hv, Bool.or_self, if_true, if_false,
        Bool.false_eq_true]
    have hcond : ¬ ((parser.getOption "-b").length ≠ 0 ∧
        (parser.getOption "-b").length = env.kBroadcastCodeSize) := by
      simp only [Bool.or_eq_true, beq_iff_eq, bne_iff_ne, ne_eq] at hv
      rintro ⟨h1, h2⟩
      rcases hv with h | h
      · exact h1 h
      · exact h h2
    have hp : parseInput env parser = missusage startInput := by
      unfold parseInput parseSteps
      rw [hs]
      rfl
    constructor
    · simp only [acceptsBroadcast, hs, Bool.false_eq_true, false_iff]
      exact hcond
    · rw [hp]
      constructor
      · intro h
        exact absurd h (by simp [missusage, startInput, ParsedInput.new])
      · intro h
        exact absurd h hcond
  · have hs : sourceStep env parser (startInput : ParsedInput F) =
        Except.ok { (startInput : ParsedInput F) with
          is_ok := true, is_lidar := some true,
          broadcast_code := some ⟨parser.getOption "-b"⟩ } := by
      simp only [sourceStep, hh, hhelp, hb, hv, Bool.or_self, if_true, if_false,
        Bool.false_eq_true]
    have hcond : (parser.getOption "-b").length ≠ 0 ∧
        (parser.getOption "-b").length = env.kBroadcastCodeSize := by
      simp only [Bool.or_eq_true, beq_iff_eq, bne_iff_ne, ne_eq, not_or, not_not] at hv
      exact hv
    have hp : (parseInput env parser).is_lidar = some true := by
      obtain ⟨r0, hr0, hs0⟩ : ∃ r0 : ParsedInput F, r0.is_lidar = some true ∧
          sourceStep env parser startInput = Except.ok r0 := ⟨_, rfl, hs⟩
      unfold parseInput parseSteps
      rw [hs0, ok_bind]
      exact after_frame (fun a : ParsedInput F => a.is_lidar = some true) env parser
        (frameStep env parser r0)
        (frameStep_keeps (fun a : ParsedInput F => a.is_lidar = some true) env parser
          (fun _ h => h) (fun _ _ h => h) r0 hr0)
        (timerStep_keeps (fun a : ParsedInput F => a.is_lidar = some true) parser
          (fun _ h => h) (fun _ _ h => h))
        (backgroundStep_keeps (fun a : ParsedInput F => a.is_lidar = some true) env parser
          (fun _ h => h) (fun _ _ h => h))
        (reflectivityStep_keeps (fun a : ParsedInput F => a.is_lidar = some true) env parser
          (fun _ h => h) (fun _ _ h => h))
    constructor
    · have hacc : acceptsBroadcast env parser = true := by
        simp [acceptsBroadcast, hs, ParserPtr.read]
      exact ⟨fun _ => hcond, fun _ => hacc⟩
    · exact ⟨fun _ => hcond, fun _ => hp⟩

end broadcast

/-- The witness of C4 as amended: the sixteen characters of `-b 0123456789012345` are
accepted. -/
theorem broadcast_code_accepted_witness :
    cmdLidar.optionExists "-h" = false ∧ cmdLidar.optionExists "--help" = false ∧
    cmdLidar.optionExists "-b" = true ∧ acceptsBroadcast env64 cmdLidar = true ∧
    (parseInput env64 cmdLidar).is_lidar = some true :=
  ⟨by decide, by decide, by decide,
   (broadcast_code_accepted env64 cmdLidar (by decide) (by decide) (by decide)).1.mpr
     (by decide),
   (broadcast_code_accepted env64 cmdLidar (by decide) (by decide) (by decide)).2.mpr
     (by decide)⟩

/-- C4 as stated fails: `anomaly_detection -b ABCDEFGHIJKLMNOP` contains `-b` and no help
option, its value is accepted as the broadcast code, and the value does not consist of
`kBroadcastCodeSize` digits. -/
theorem broadcast_letters_accepted :
    cmdLetters.optionExists "-b" = true ∧ cmdLetters.optionExists "-h" = false ∧
    cmdLetters.optionExists "--help" = false ∧
    ¬ (acceptsBroadcast env64 cmdLetters = true ↔
      exactlyDigits env64.kBroadcastCodeSize (cmdLetters.getOption "-b") = true) := by
  decide

/-! ## The options `-d` and `-g` -/

section durations
variable {F : Type} [Zero F]

/-- C5, as amended: for every `n < 2 ^ 32` and every command line with a valid source option,
a `-d` value that is the decimal numeral of `n` gives `frame_time = n`; a `-g` value that is
the decimal numeral of `n` gives `background_time = n` when the `-d` and `-t` blocks before it
do not return (`-d` absent or converted by `std::stoul`, `-t` absent or one of the four
values); and a `-d` or `-g` value that is empty or does not begin with a number (after
optional white space and an optional sign, a decimal digit) gives `is_ok = false` with
`exit_code = EXIT_FAILURE`. -/
theorem duration_options (env : Env F) (parser : InputParser) (n : Nat) (hn : n < 2 ^ 32)
    (hsrc : validSource env parser = true) :
    (parser.optionExists "-d" = true → parser.getOption "-d" = Nat.repr n →
      (parseInput env parser).frame_time = n) ∧
    (parser.optionExists "-g" = true → parser.getOption "-g" = Nat.repr n →
      frameValueOk env parser = true → timerValueOk parser = true →
      (parseInput env parser).background_time = n) ∧
    (parser.optionExists "-d" = true →
      ((parser.getOption "-d").length = 0 ∨
        beginsWithNumber (parser.getOption "-d") = false) →
      (parseInput env parser).is_ok = false ∧
        (parseInput env parser).exit_code = some EXIT_FAILURE) ∧
    (parser.optionExists "-g" = true →
      ((parser.getOption "-g").length = 0 ∨
        beginsWithNumber (parser.getOption "-g") = false) →
      (parseInput env parser).is_ok = false ∧
        (parseInput env parser).exit_code = some EXIT_FAILURE) := by
  obtain ⟨r0, hs, _, _, _⟩ := sourceStep_of_valid env parser hsrc (startInput : ParsedInput F)
  have hfit : n < 2 ^ env.ulongBits :=
    lt_of_lt_of_le hn (Nat.pow_le_pow_right (by decide) env.ulongBits_ge)
  have hcast : toUInt32 n = n := Nat.mod_eq_of_lt hn
  refine ⟨fun hd hv => ?_, fun hg hv hdok htok => ?_, fun hd hbad => ?_, fun hg hbad => ?_⟩
  · have hf := frameStep_value env parser r0 n hd (hv ▸ repr_length_ne_zero n)
      (hv ▸ stoul_repr env.ulongBits n hfit)
    rw [frame_time_of_passed env parser _ (by rw [hs, ok_bind, hf])]
    exact hcast
  · obtain ⟨t, hf⟩ := frameStep_of_valueOk env parser r0 hdok
    obtain ⟨m, htm⟩ := timerStep_of_valueOk parser
      ({ r0 with frame_time := t } : ParsedInput F) htok
    have hb := backgroundStep_value env parser
      ({ r0 with frame_time := t, time_mode := m } : ParsedInput F) n hg
      (hv ▸ repr_length_ne_zero n) (hv ▸ stoul_repr env.ulongBits n hfit)
    rw [background_time_of_passed env parser _
      (by rw [hs, ok_bind, hf, ok_bind, htm, ok_bind, hb])]
    exact hcast
  · apply misuse_after_frame
    rw [hs, ok_bind, frameStep_misuse env parser r0 hd hbad]
    exact ⟨rfl, rfl⟩
  · unfold parseInput parseSteps
    refine returnValue_bind
      (fun a : ParsedInput F => a.is_ok = false ∧ a.exit_code = some EXIT_FAILURE)
      (sourceStep env parser startInput >>= frameStep env parser >>= timerStep parser >>=
        backgroundStep env parser)
      (reflectivityStep env parser) ?_ (misuse_kept_by _ (reflectivityStep_shape env parser))
    refine misuse_of_failing_block _ _ ?_
      (fun a => backgroundStep_misuse env parser a hg hbad)
    refine errors_of_bind _ _ ?_ (timerStep_shape parser)
    rw [hs, ok_bind]
    exact errors_of_bind (Except.ok r0) _ (fun e he => by cases he)
      (frameStep_shape env parser)

end durations

/-- The witness of C5 as amended: on
`anomaly_detection -b 0123456789012345 -d 250 -t char -g 750` the frame time is 250 and the
background time is 750. -/
theorem duration_options_witness :
    validSource env64 cmdLidar = true ∧
    (cmdLidar.getOption "-d" = Nat.repr 250 ∧ (parseInput env64 cmdLidar).frame_time = 250) ∧
    (cmdLidar.getOption "-g" = Nat.repr 750 ∧ frameValueOk env64 cmdLidar = true ∧
      timerValueOk cmdLidar = true ∧ (parseInput env64 cmdLidar).background_time = 750) :=
  ⟨by decide,
   ⟨by decide,
    (duration_options env64 cmdLidar 250 (by decide) (by decide)).1
      (by decide) (by decide)⟩,
   ⟨by decide, by decide, by decide,
    (duration_options env64 cmdLidar 750 (by decide) (by decide)).2.1
      (by decide) (by decide) (by decide) (by decide)⟩⟩

/-- C5 as stated fails for `-g`: `anomaly_detection -f points.csv -t fast -g 7` has a valid
source option and the `-g` value is the decimal numeral of 7, yet `parseInput` returns the
default `background_time = 500`, because the `-t` block returns before `-g` is read. -/
theorem background_option_skipped :
    validSource env64 cmdBadTimerThenBackground = true ∧
    cmdBadTimerThenBackground.optionExists "-g" = true ∧
    cmdBadTimerThenBackground.getOption "-g" = Nat.repr 7 ∧
    (parseInput env64 cmdBadTimerThenBackground).background_time = 500 ∧
    ¬ (parseInput env64 cmdBadTimerThenBackground).background_time = 7 := by
  decide

end LBAD
